import Mathlib

/-!
Verification of the credential-resolution chain and request signing of the
`taws` terminal client (`src/aws/credentials.rs` and the SigV4 signer
described in the design document).

Rust strings are modelled as lists of characters (`RStr`); all characters the
code branches on (`[`, `]`, `#`, `;`, `=`, whitespace) are ASCII, so byte
indices and character indices coincide at every slicing site.  Rust
`HashMap<String, _>` is modelled as an association list with
insert-or-overwrite semantics, which is observationally equivalent under
`get`.  The filesystem and the process environment are passed explicitly:
a file is `Option RStr` (`none` = `fs::read_to_string` failed), an
environment variable is `Option RStr` (`none` = unset).
-/

/-- Rust `String` / `&str`, modelled as its character sequence. -/
abbrev RStr := List Char

/-- Rust `char::is_whitespace` restricted to the ASCII whitespace the
repository's config files contain (space, tab, CR, LF). -/
def isWS (c : Char) : Bool :=
  c = ' ' || c = '\t' || c = '\n' || c = '\r'

/-- Rust `str::trim`: drop leading and trailing whitespace. -/
def trimChars (cs : RStr) : RStr :=
  ((cs.dropWhile isWS).reverse.dropWhile isWS).reverse

/-- Rust `str::starts_with(char)`. -/
def startsWithChar (c : Char) : RStr → Bool
  | [] => false
  | x :: _ => x = c

/-- Rust `str::ends_with(char)`. -/
def endsWithChar (c : Char) : RStr → Bool
  | [] => false
  | x :: xs => match xs with
    | [] => x = c
    | y :: ys => endsWithChar c (y :: ys)

/-- Rust `str::starts_with(&str)`: the first argument is the needle. -/
def startsWithSeq : RStr → RStr → Bool
  | [], _ => true
  | _ :: _, [] => false
  | p :: ps, c :: cs => p = c && startsWithSeq ps cs

/-- Rust `str::split_once(char)`: split at the first occurrence of the
separator, which is consumed. -/
def splitOnceChar (sep : Char) : RStr → Option (RStr × RStr)
  | [] => none
  | c :: rest =>
    if c = sep then some ([], rest)
    else match splitOnceChar sep rest with
      | some (l, r) => some (c :: l, r)
      | none => none

/-- Split a character sequence on a separator character (always returns a
non-empty list of pieces).  Rust `str::lines()` additionally drops a final
empty piece and a trailing `\r` per line; both differences are absorbed by
the parser, which trims every line and skips empty ones. -/
def splitOnChar (sep : Char) : RStr → List RStr
  | [] => [[]]
  | c :: rest =>
    match splitOnChar sep rest with
    | [] => [[c]]
    | cur :: others =>
      if c = sep then [] :: cur :: others else (c :: cur) :: others

/-- Rust byte-range slicing `&s[i..j]`: `none` models the out-of-bounds
panic. -/
def rustSlice (cs : RStr) (i j : Nat) : Option RStr :=
  if i ≤ j ∧ j ≤ cs.length then some ((cs.take j).drop i) else none

/-- `HashMap::get` on the association-list model. -/
def alGet (m : List (RStr × α)) (k : RStr) : Option α :=
  match m with
  | [] => none
  | (k1, v) :: rest => if k1 = k then some v else alGet rest k

/-- `HashMap::insert` (overwrite an existing binding, append otherwise). -/
def alInsert (m : List (RStr × α)) (k : RStr) (v : α) : List (RStr × α) :=
  match m with
  | [] => [(k, v)]
  | (k1, v1) :: rest =>
    if k1 = k then (k, v) :: rest else (k1, v1) :: alInsert rest k v

/-- `HashMap::entry(k).or_default()` (as a statement about the map: make
sure `k` is bound, to the default if it was absent). -/
def alEntryOrDefault (m : List (RStr × α)) (k : RStr) (d : α) : List (RStr × α) :=
  match alGet m k with
  | some _ => m
  | none => m ++ [(k, d)]

/-- The INI section map: section name → (key → value). -/
abbrev Sections := List (RStr × List (RStr × RStr))

/-- `sections.entry(sec).or_default().insert(k, v)`. -/
def alInsertKV (m : Sections) (sec k v : RStr) : Sections :=
  match m with
  | [] => [(sec, [(k, v)])]
  | (s, kvs) :: rest =>
    if s = sec then (s, alInsert kvs k v) :: rest
    else (s, kvs) :: alInsertKV rest sec k v

/-- The mutable state of `parse_ini_file`'s loop: the accumulated section
map and `current_section`. -/
structure IniState where
  sections : Sections
  current : RStr
deriving DecidableEq, Repr

/-- One iteration of the `for line in content.lines()` loop of
`parse_ini_file`.  `none` models a slicing panic (shown unreachable below). -/
def processLine (st : IniState) (rawLine : RStr) : Option IniState :=
  let line := trimChars rawLine
  if line.isEmpty || startsWithChar '#' line || startsWithChar ';' line then
    some st
  else if startsWithChar '[' line && endsWithChar ']' line then
    match rustSlice line 1 (line.length - 1) with
    | none => none
    | some inner =>
      let sec0 := trimChars inner
      let sec := if startsWithSeq "profile ".data sec0 then
          sec0.drop "profile ".data.length
        else sec0
      some ⟨alEntryOrDefault st.sections sec [], sec⟩
  else
    match splitOnceChar '=' line with
    | some (k, v) =>
      if st.current.isEmpty then some st
      else some ⟨alInsertKV st.sections st.current (trimChars k) (trimChars v),
                 st.current⟩
    | none => some st

/-- The loop of `parse_ini_file` over all lines. -/
def runLines (st : IniState) : List RStr → Option IniState
  | [] => some st
  | l :: ls =>
    match processLine st l with
    | none => none
    | some st2 => runLines st2 ls

/-- `parse_ini_file`, with the potential slicing panic made explicit. -/
def parse_ini_checked (content : RStr) : Option Sections :=
  (runLines ⟨[], []⟩ (splitOnChar '\n' content)).map IniState.sections

/-- `parse_ini_file` (total form; justified by the panic-freedom theorem for
`parse_ini_checked`). -/
def parse_ini_file (content : RStr) : Sections :=
  (parse_ini_checked content).getD []

/-- AWS credentials (`struct Credentials`). -/
structure Credentials where
  access_key_id : RStr
  secret_access_key : RStr
  session_token : Option RStr
deriving DecidableEq, Repr

/-- The three credential environment variables read by `load_from_env`,
plus the two region variables read by `get_profile_region`
(`none` = variable unset). -/
structure Env where
  accessKeyId : Option RStr
  secretAccessKey : Option RStr
  sessionToken : Option RStr
deriving DecidableEq, Repr

/-- `load_from_env`. -/
def load_from_env (env : Env) : Except RStr Credentials :=
  match env.accessKeyId with
  | none => .error "AWS_ACCESS_KEY_ID not set".data
  | some ak =>
    match env.secretAccessKey with
    | none => .error "AWS_SECRET_ACCESS_KEY not set".data
    | some sk => .ok ⟨ak, sk, env.sessionToken⟩

/-- `load_from_credentials_file`.  `content` is the text of
`~/.aws/credentials` (`none` when the directory cannot be determined or the
file cannot be read — both produce an `Err` in the source). -/
def load_from_credentials_file (profile : RStr) (content : Option RStr) :
    Except RStr Credentials :=
  match content with
  | none => .error "Could not read credentials file".data
  | some text =>
    let sections := parse_ini_file text
    match alGet sections profile with
    | none =>
      .error ("Profile '".data ++ profile ++ "' not found in credentials file".data)
    | some sec =>
      match alGet sec "aws_access_key_id".data with
      | none =>
        .error ("aws_access_key_id not found for profile '".data ++ profile ++ "'".data)
      | some ak =>
        match alGet sec "aws_secret_access_key".data with
        | none =>
          .error ("aws_secret_access_key not found for profile '".data ++ profile ++ "'".data)
        | some sk => .ok ⟨ak, sk, alGet sec "aws_session_token".data⟩

/-- `load_from_config_file`.  `content` is the text of `~/.aws/config`. -/
def load_from_config_file (profile : RStr) (content : Option RStr) :
    Except RStr Credentials :=
  match content with
  | none => .error "Could not read config file".data
  | some text =>
    let sections := parse_ini_file text
    match alGet sections profile with
    | none =>
      .error ("Profile '".data ++ profile ++ "' not found in config file".data)
    | some sec =>
      match alGet sec "aws_access_key_id".data, alGet sec "aws_secret_access_key".data with
      | some ak, some sk => .ok ⟨ak, sk, alGet sec "aws_session_token".data⟩
      | _, _ =>
        .error ("No direct credentials found in config for profile '".data ++ profile ++ "'".data)

/-- `get_profile_region`: environment variables `AWS_REGION` then
`AWS_DEFAULT_REGION`, then the profile's `region` key in the config file. -/
def get_profile_region (profile : RStr) (envRegion envDefaultRegion : Option RStr)
    (configFile : Option RStr) : Option RStr :=
  match envRegion with
  | some r => some r
  | none =>
    match envDefaultRegion with
    | some r => some r
    | none =>
      match configFile with
      | none => none
      | some text =>
        match alGet (parse_ini_file text) profile with
        | none => none
        | some sec =>
          match alGet sec "region".data with
          | none => none
          | some r => some r

/-- A cached IMDS credential set with its expiration instant
(`struct CachedImdsCredentials`).  `Instant` is modelled as seconds on a
monotonic `Nat` clock; `Duration` constants become second counts. -/
structure CachedImdsCredentials where
  credentials : Credentials
  expiration : Nat
deriving DecidableEq, Repr

/-- `IMDS_REFRESH_BUFFER` (5 minutes, in seconds). -/
def IMDS_REFRESH_BUFFER : Nat := 300

/-- An HTTP response as the IMDS code observes it: status code and body. -/
structure HttpResp where
  status : Nat
  body : RStr
deriving DecidableEq, Repr

/-- The string fields `fetch_imds_credentials` reads from the credential
JSON document (`get(..).and_then(as_str)`: a missing field and a non-string
field are both `none`). -/
structure ImdsCredsDoc where
  accessKeyId : Option RStr
  secretAccessKey : Option RStr
  token : Option RStr
  expiration : Option RStr
deriving DecidableEq, Repr

/-- The three IMDS exchanges of `fetch_imds_credentials`, as data: the
token PUT, the role-name GET, and the credential-document GET for that role
(`none` = transport failure / unreadable body; for the credential document
the inner `Option` is the `serde_json` parse of the body, `none` = parse
failure). -/
structure ImdsNet where
  tokenResp : Option HttpResp
  roleResp : Option HttpResp
  credsResp : Option (Nat × Option ImdsCredsDoc)
deriving DecidableEq, Repr

/-- `reqwest::StatusCode::is_success`: 2xx. -/
def statusSuccess (s : Nat) : Bool := 200 ≤ s && s < 300

/-- `parse_expiration`, with the `chrono` ISO-8601 parser abstracted as
`parseDT` (wall-clock seconds), `nowWall` = `Utc::now()`, `nowInst` =
`Instant::now()`: `none` when the string does not parse or the parsed time
is not in the future, otherwise the expiration mapped onto the monotonic
clock. -/
def parse_expiration (parseDT : RStr → Option Int) (s : RStr)
    (nowWall : Int) (nowInst : Nat) : Option Nat :=
  match parseDT s with
  | none => none
  | some t => if t ≤ nowWall then none else some (nowInst + (t - nowWall).toNat)

/-- `fetch_imds_credentials`: the three-step token/role/credentials fetch.
Returns the result together with the IMDS cache after the call (the source
writes the cache in place; `cache` is its value at entry). -/
def fetch_imds_credentials (net : ImdsNet) (parseDT : RStr → Option Int)
    (nowWall : Int) (nowInst : Nat) (cache : Option CachedImdsCredentials) :
    Except RStr Credentials × Option CachedImdsCredentials :=
  match net.tokenResp with
  | none => (.error "Failed to get IMDS token (not running on EC2?)".data, cache)
  | some tokenResponse =>
    if !statusSuccess tokenResponse.status then
      (.error "IMDS token request failed".data, cache)
    else
      match net.roleResp with
      | none => (.error "Failed to get IAM role".data, cache)
      | some roleResponse =>
        if !statusSuccess roleResponse.status then
          (.error "No IAM role attached to this EC2 instance".data, cache)
        else
          let roleName := trimChars roleResponse.body
          if roleName.isEmpty then
            (.error "No IAM role attached to this EC2 instance".data, cache)
          else
            match net.credsResp with
            | none => (.error "Failed to get credentials".data, cache)
            | some (credsStatus, credsJson) =>
              if !statusSuccess credsStatus then
                (.error "Failed to get credentials for role".data, cache)
              else
                match credsJson with
                | none => (.error "Failed to parse credentials JSON".data, cache)
                | some doc =>
                  match doc.accessKeyId with
                  | none => (.error "AccessKeyId not found in IMDS response".data, cache)
                  | some ak =>
                    match doc.secretAccessKey with
                    | none => (.error "SecretAccessKey not found in IMDS response".data, cache)
                    | some sk =>
                      let expiration :=
                        match doc.expiration with
                        | some expStr =>
                          (parse_expiration parseDT expStr nowWall nowInst).getD
                            (nowInst + 3600)
                        | none => nowInst + 3600
                      let credentials : Credentials := ⟨ak, sk, doc.token⟩
                      (.ok credentials, some ⟨credentials, expiration⟩)

/-- `load_from_imds`: serve from the cache when the cached expiration is
more than `IMDS_REFRESH_BUFFER` past `now`, otherwise fetch.  The third
component records whether a network fetch was performed. -/
def load_from_imds (net : ImdsNet) (parseDT : RStr → Option Int)
    (nowWall : Int) (nowInst : Nat) (cache : Option CachedImdsCredentials) :
    Except RStr Credentials × Option CachedImdsCredentials × Bool :=
  match cache with
  | some cached =>
    if nowInst + IMDS_REFRESH_BUFFER < cached.expiration then
      (.ok cached.credentials, cache, false)
    else
      let r := fetch_imds_credentials net parseDT nowWall nowInst cache
      (r.1, r.2, true)
  | none =>
    let r := fetch_imds_credentials net parseDT nowWall nowInst cache
    (r.1, r.2, true)

/-- The `NotFound` error message of `load_credentials`. -/
def notFoundMsg (profile : RStr) : RStr :=
  "No credentials found for profile '".data ++ profile ++
    "'. Run 'aws configure' or set AWS_ACCESS_KEY_ID/AWS_SECRET_ACCESS_KEY".data

/-- `load_credentials`: the four-source chain (environment for the default
profile, credentials file, config file, IMDS for the default profile),
short-circuiting on the first success. -/
def load_credentials (profile : RStr) (env : Env)
    (credsFile configFile : Option RStr)
    (net : ImdsNet) (parseDT : RStr → Option Int)
    (nowWall : Int) (nowInst : Nat) (cache : Option CachedImdsCredentials) :
    Except RStr Credentials :=
  let step4 : Except RStr Credentials :=
    if profile = "default".data then
      match (load_from_imds net parseDT nowWall nowInst cache).1 with
      | .ok c => .ok c
      | .error _ => .error (notFoundMsg profile)
    else .error (notFoundMsg profile)
  let step3 : Except RStr Credentials :=
    match load_from_config_file profile configFile with
    | .ok c => .ok c
    | .error _ => step4
  let step2 : Except RStr Credentials :=
    match load_from_credentials_file profile credsFile with
    | .ok c => .ok c
    | .error _ => step3
  if profile = "default".data then
    match load_from_env env with
    | .ok c => .ok c
    | .error _ => step2
  else step2

/-! ### The request signer

Modelled from the spec: the signer module itself (invoked by
`resource/sdk_dispatch.rs` as `crate::aws::http`) is not among the provided
source files, so the definitions below follow §4.2 of the design document
word by word: canonical request, string-to-sign, the four-step HMAC key
derivation, and the composed authorization header.  SHA-256 and HMAC-SHA256
are implemented concretely over byte lists (`Nat` values `< 256`). -/

/-- Truncate to a 32-bit word. -/
def w32 (n : Nat) : Nat := n % 4294967296

/-- 32-bit right rotation. -/
def rotr32 (x n : Nat) : Nat := w32 ((x >>> n) ||| (x <<< (32 - n)))

/-- SHA-256 `Ch`. -/
def sha256Ch (x y z : Nat) : Nat := (x &&& y) ^^^ ((x ^^^ 4294967295) &&& z)

/-- SHA-256 `Maj`. -/
def sha256Maj (x y z : Nat) : Nat := (x &&& y) ^^^ (x &&& z) ^^^ (y &&& z)

/-- SHA-256 `Σ0`. -/
def bigSigma0 (x : Nat) : Nat := rotr32 x 2 ^^^ rotr32 x 13 ^^^ rotr32 x 22

/-- SHA-256 `Σ1`. -/
def bigSigma1 (x : Nat) : Nat := rotr32 x 6 ^^^ rotr32 x 11 ^^^ rotr32 x 25

/-- SHA-256 `σ0`. -/
def smallSigma0 (x : Nat) : Nat := rotr32 x 7 ^^^ rotr32 x 18 ^^^ (x >>> 3)

/-- SHA-256 `σ1`. -/
def smallSigma1 (x : Nat) : Nat := rotr32 x 17 ^^^ rotr32 x 19 ^^^ (x >>> 10)

/-- The SHA-256 round constants (decimal). -/
def sha256K : List Nat :=
  [1116352408, 1899447441, 3049323471, 3921009573, 961987163,
   1508970993, 2453635748, 2870763221, 3624381080, 310598401,
   607225278, 1426881987, 1925078388, 2162078206, 2614888103,
   3248222580, 3835390401, 4022224774, 264347078, 604807628,
   770255983, 1249150122, 1555081692, 1996064986, 2554220882,
   2821834349, 2952996808, 3210313671, 3336571891, 3584528711,
   113926993, 338241895, 666307205, 773529912, 1294757372,
   1396182291, 1695183700, 1986661051, 2177026350, 2456956037,
   2730485921, 2820302411, 3259730800, 3345764771, 3516065817,
   3600352804, 4094571909, 275423344, 430227734, 506948616,
   659060556, 883997877, 958139571, 1322822218, 1537002063,
   1747873779, 1955562222, 2024104815, 2227730452, 2361852424,
   2428436474, 2756734187, 3204031479, 3329325298]

/-- The SHA-256 initial hash state (decimal). -/
def sha256H0 : List Nat :=
  [1779033703, 3144134277, 1013904242, 2773480762,
   1359893119, 2600822924, 528734635, 1541459225]

/-- Big-endian byte rendering of `x` in `n` bytes. -/
def beBytes (n x : Nat) : List Nat :=
  (List.range n).map (fun i => (x >>> (8 * (n - 1 - i))) % 256)

/-- SHA-256 message padding: `0x80`, zeros to 56 mod 64, 8-byte bit length. -/
def sha256Pad (msg : List Nat) : List Nat :=
  msg ++ [0x80] ++ List.replicate ((119 - msg.length % 64) % 64) 0 ++
    beBytes 8 (msg.length * 8)

/-- Split a byte list into 64-byte chunks. -/
def chunks64 (l : List Nat) : List (List Nat) :=
  if h : l = [] then []
  else l.take 64 :: chunks64 (l.drop 64)
termination_by l.length
decreasing_by
  simp only [List.length_drop]
  cases l with
  | nil => exact absurd rfl h
  | cons a as => simp only [List.length_cons]; omega

/-- The first 16 words of the message schedule, from one 64-byte chunk. -/
def chunkWords (chunk : List Nat) : List Nat :=
  (List.range 16).map (fun i =>
    chunk.getD (4 * i) 0 * 16777216 + chunk.getD (4 * i + 1) 0 * 65536 +
      chunk.getD (4 * i + 2) 0 * 256 + chunk.getD (4 * i + 3) 0)

/-- Extend the 16-word schedule to 64 words. -/
def sha256Schedule (w16 : List Nat) : List Nat :=
  (List.range 48).foldl (fun w _ =>
    let n := w.length
    w ++ [w32 (smallSigma1 (w.getD (n - 2) 0) + w.getD (n - 7) 0 +
               smallSigma0 (w.getD (n - 15) 0) + w.getD (n - 16) 0)]) w16

/-- The SHA-256 working state. -/
structure Sha8 where
  a : Nat
  b : Nat
  c : Nat
  d : Nat
  e : Nat
  f : Nat
  g : Nat
  hh : Nat
deriving DecidableEq, Repr

/-- One SHA-256 compression round. -/
def sha256Round (s : Sha8) (kw : Nat × Nat) : Sha8 :=
  let t1 := s.hh + bigSigma1 s.e + sha256Ch s.e s.f s.g + kw.1 + kw.2
  let t2 := bigSigma0 s.a + sha256Maj s.a s.b s.c
  ⟨w32 (t1 + t2), s.a, s.b, s.c, w32 (s.d + t1), s.e, s.f, s.g⟩

/-- Process one 64-byte chunk of the padded message. -/
def sha256Chunk (state : List Nat) (chunk : List Nat) : List Nat :=
  let w := sha256Schedule (chunkWords chunk)
  let s0 : Sha8 := ⟨state.getD 0 0, state.getD 1 0, state.getD 2 0, state.getD 3 0,
                    state.getD 4 0, state.getD 5 0, state.getD 6 0, state.getD 7 0⟩
  let s := (sha256K.zip w).foldl sha256Round s0
  [w32 (state.getD 0 0 + s.a), w32 (state.getD 1 0 + s.b),
   w32 (state.getD 2 0 + s.c), w32 (state.getD 3 0 + s.d),
   w32 (state.getD 4 0 + s.e), w32 (state.getD 5 0 + s.f),
   w32 (state.getD 6 0 + s.g), w32 (state.getD 7 0 + s.hh)]

/-- SHA-256 of a byte list, as 32 bytes. -/
def sha256 (msg : List Nat) : List Nat :=
  ((chunks64 (sha256Pad msg)).foldl sha256Chunk sha256H0).map (beBytes 4) |>.flatten

/-- HMAC-SHA256 (64-byte block size). -/
def hmacSha256 (key msg : List Nat) : List Nat :=
  let k0 := if 64 < key.length then sha256 key else key
  let k := k0 ++ List.replicate (64 - k0.length) 0
  sha256 ((k.map (fun b => b ^^^ 0x5c)) ++ sha256 ((k.map (fun b => b ^^^ 0x36)) ++ msg))

/-- Lowercase hex digit. -/
def hexLowerDigit (n : Nat) : Char :=
  if n < 10 then Char.ofNat (48 + n) else Char.ofNat (87 + n)

/-- Uppercase hex digit. -/
def hexUpperDigit (n : Nat) : Char :=
  if n < 10 then Char.ofNat (48 + n) else Char.ofNat (55 + n)

/-- Lowercase hex rendering of a byte list. -/
def hexLower (bs : List Nat) : RStr :=
  (bs.map (fun b => [hexLowerDigit (b / 16), hexLowerDigit (b % 16)])).flatten

/-- UTF-8 encoding of one character, as bytes. -/
def utf8Char (c : Char) : List Nat :=
  let n := c.toNat
  if n < 0x80 then [n]
  else if n < 0x800 then [0xC0 ||| (n >>> 6), 0x80 ||| (n &&& 0x3F)]
  else if n < 0x10000 then
    [0xE0 ||| (n >>> 12), 0x80 ||| ((n >>> 6) &&& 0x3F), 0x80 ||| (n &&& 0x3F)]
  else
    [0xF0 ||| (n >>> 18), 0x80 ||| ((n >>> 12) &&& 0x3F),
     0x80 ||| ((n >>> 6) &&& 0x3F), 0x80 ||| (n &&& 0x3F)]

/-- UTF-8 bytes of a string. -/
def strBytes (s : RStr) : List Nat := (s.map utf8Char).flatten

/-- Unreserved characters of the fixed percent-encoding set. -/
def isUnreserved (c : Char) : Bool :=
  c.isAlphanum || c = '-' || c = '.' || c = '_' || c = '~'

/-- Percent-encode a string: unreserved characters pass through, every
other byte becomes `%HH` with uppercase hex. -/
def uriEncode (s : RStr) : RStr :=
  (s.map (fun c =>
    if isUnreserved c then [c]
    else ((utf8Char c).map
      (fun b => ['%', hexUpperDigit (b / 16), hexUpperDigit (b % 16)])).flatten)).flatten

/-- Strict lexicographic order on character sequences (by code point). -/
def lexLt : RStr → RStr → Bool
  | [], [] => false
  | [], _ :: _ => true
  | _ :: _, [] => false
  | a :: as, b :: bs =>
    if a.toNat < b.toNat then true
    else if b.toNat < a.toNat then false
    else lexLt as bs

/-- Reflexive lexicographic order. -/
def lexLe (a b : RStr) : Bool := !lexLt b a

/-- Insert into a list sorted by `le`. -/
def insSorted (le : α → α → Bool) (x : α) : List α → List α
  | [] => [x]
  | y :: ys => if le x y then x :: y :: ys else y :: insSorted le x ys

/-- Insertion sort by `le`. -/
def insSort (le : α → α → Bool) : List α → List α
  | [] => []
  | x :: xs => insSorted le x (insSort le xs)

/-- Canonical URI: each `/`-separated path segment percent-encoded
independently; the empty path canonicalizes to `/`. -/
def canonicalUri (path : RStr) : RStr :=
  if path.isEmpty then "/".data
  else List.intercalate "/".data ((splitOnChar '/' path).map uriEncode)

/-- Order on encoded query pairs: by key, then by value. -/
def queryPairLe (p q : RStr × RStr) : Bool :=
  if p.1 = q.1 then lexLe p.2 q.2 else lexLt p.1 q.1

/-- Canonical query string: pairs percent-encoded, sorted by key then
value, rendered `k=v` and joined with `&` (empty string if none). -/
def canonicalQuery (params : List (RStr × RStr)) : RStr :=
  List.intercalate "&".data
    ((insSort queryPairLe (params.map (fun p => (uriEncode p.1, uriEncode p.2)))).map
      (fun p => p.1 ++ "=".data ++ p.2))

/-- Lowercase a string. -/
def toLowerStr (s : RStr) : RStr := s.map Char.toLower

/-- Uppercase a string. -/
def toUpperStr (s : RStr) : RStr := s.map Char.toUpper

/-- Header canonicalization: names lowercased, values trimmed, sorted by
header name. -/
def canonicalHeaderList (headers : List (RStr × RStr)) : List (RStr × RStr) :=
  insSort (fun p q => lexLe p.1 q.1)
    (headers.map (fun p => (toLowerStr p.1, trimChars p.2)))

/-- Canonical headers block: each header rendered `name:value` followed by
a newline. -/
def canonicalHeaders (headers : List (RStr × RStr)) : RStr :=
  ((canonicalHeaderList headers).map
    (fun p => p.1 ++ ":".data ++ p.2 ++ "\n".data)).flatten

/-- Signed-headers list: lowercased names in the same sort order, joined
with `;`. -/
def signedHeaders (headers : List (RStr × RStr)) : RStr :=
  List.intercalate ";".data ((canonicalHeaderList headers).map (fun p => p.1))

/-- Hex-encoded SHA-256 of the payload (the hash of the empty string for
bodiless requests). -/
def payloadHash (body : RStr) : RStr := hexLower (sha256 (strBytes body))

/-- The canonical request string of §4.2 step 1. -/
def canonicalRequest (method path : RStr) (query headers : List (RStr × RStr))
    (body : RStr) : RStr :=
  toUpperStr method ++ "\n".data ++
    canonicalUri path ++ "\n".data ++
    canonicalQuery query ++ "\n".data ++
    canonicalHeaders headers ++ "\n".data ++
    signedHeaders headers ++ "\n".data ++
    payloadHash body

/-- The credential scope `date/region/service/aws4_request`; the date is
the first eight characters (`YYYYMMDD`) of the timestamp. -/
def credentialScope (timestamp region service : RStr) : RStr :=
  timestamp.take 8 ++ "/".data ++ region ++ "/".data ++ service ++
    "/aws4_request".data

/-- The string-to-sign of §4.2 step 2. -/
def stringToSign (method path : RStr) (query headers : List (RStr × RStr))
    (body region service timestamp : RStr) : RStr :=
  "AWS4-HMAC-SHA256".data ++ "\n".data ++
    timestamp ++ "\n".data ++
    credentialScope timestamp region service ++ "\n".data ++
    hexLower (sha256 (strBytes (canonicalRequest method path query headers body)))

/-- The four chained HMAC operations of §4.2 step 3 deriving the signing
key from the secret access key. -/
def signingKey (secret date region service : RStr) : List Nat :=
  hmacSha256
    (hmacSha256
      (hmacSha256
        (hmacSha256 (strBytes ("AWS4".data ++ secret)) (strBytes date))
        (strBytes region))
      (strBytes service))
    (strBytes "aws4_request".data)

/-- The signer's output: the hex signature, the composed authorization
header, the date header, and the session token to carry when present. -/
structure SignOutput where
  signature : RStr
  authorization : RStr
  xAmzDate : RStr
  securityToken : Option RStr
deriving DecidableEq, Repr

/-- `sign`: the full §4.2 pipeline, a pure function of the request, the
credentials, the region/service pair, and the timestamp. -/
def sign (method path : RStr) (query headers : List (RStr × RStr))
    (body : RStr) (creds : Credentials) (region service timestamp : RStr) :
    SignOutput :=
  let scope := credentialScope timestamp region service
  let sts := stringToSign method path query headers body region service timestamp
  let key := signingKey creds.secret_access_key (timestamp.take 8) region service
  let signature := hexLower (hmacSha256 key (strBytes sts))
  { signature := signature
    authorization :=
      "AWS4-HMAC-SHA256 Credential=".data ++ creds.access_key_id ++ "/".data ++
        scope ++ ", SignedHeaders=".data ++ signedHeaders headers ++
        ", Signature=".data ++ signature
    xAmzDate := timestamp
    securityToken := creds.session_token }

/-- `Result::is_ok`. -/
def exOk : Except ε α → Bool
  | .ok _ => true
  | .error _ => false

/-- Characters that can appear in an ordinary profile name (ASCII letters,
digits, `-`, `_`). -/
def plainChar (c : Char) : Bool :=
  c.isAlphanum || c = '-' || c = '_'

/-- An ordinary profile name: non-empty and made of `plainChar`s. -/
def cleanName (p : RStr) : Bool :=
  !p.isEmpty && p.all plainChar

/-! ### Panic-freedom of the INI parser -/

theorem header_len {l : RStr} (h1 : startsWithChar '[' l = true)
    (h2 : endsWithChar ']' l = true) : 2 ≤ l.length := by
  match l with
  | [] => simp [startsWithChar] at h1
  | [x] =>
    simp [startsWithChar] at h1
    simp [endsWithChar] at h2
    subst h1
    exact absurd h2 (by decide)
  | x :: y :: t =>
    simp only [List.length_cons]
    omega

theorem processLine_isSome (st : IniState) (rawLine : RStr) :
    (processLine st rawLine).isSome = true := by
  unfold processLine
  by_cases h0 : ((trimChars rawLine).isEmpty || startsWithChar '#' (trimChars rawLine)
      || startsWithChar ';' (trimChars rawLine)) = true
  · simp [h0]
  · simp only [h0, Bool.false_eq_true, if_false]
    by_cases h1 : (startsWithChar '[' (trimChars rawLine)
        && endsWithChar ']' (trimChars rawLine)) = true
    · simp only [h1, if_true]
      have hs : startsWithChar '[' (trimChars rawLine) = true :=
        (Bool.and_eq_true_iff.mp h1).1
      have he : endsWithChar ']' (trimChars rawLine) = true :=
        (Bool.and_eq_true_iff.mp h1).2
      have hlen : 2 ≤ (trimChars rawLine).length := header_len hs he
      have hslice : rustSlice (trimChars rawLine) 1 ((trimChars rawLine).length - 1) =
          some (((trimChars rawLine).take ((trimChars rawLine).length - 1)).drop 1) := by
        unfold rustSlice
        rw [if_pos]
        omega
      rw [hslice]
      rfl
    · simp only [h1, Bool.false_eq_true, if_false]
      cases splitOnceChar '=' (trimChars rawLine) with
      | none => rfl
      | some kv =>
        cases kv with
        | mk k v =>
          simp only []
          by_cases hc : st.current.isEmpty = true <;> simp [hc]

theorem runLines_isSome (ls : List RStr) : ∀ st, (runLines st ls).isSome = true := by
  induction ls with
  | nil => intro st; rfl
  | cons l ls ih =>
    intro st
    unfold runLines
    have h := processLine_isSome st l
    cases hp : processLine st l with
    | none => rw [hp] at h; simp at h
    | some st2 => simp only [hp]; exact ih st2

/-- C9: `parse_ini_file` is total and panic-free: for every input string the
parser (with the `line[1..len-1]` slice modelled as a checked operation whose
out-of-bounds case is `none`) returns a section map — the slice is reached
only when the trimmed line both starts with `[` and ends with `]`, which
forces it in bounds, and the `profile ` strip is guarded by its own prefix
test. -/
theorem claim_C9_parse_ini_panic_free (content : RStr) :
    (parse_ini_checked content).isSome = true := by
  unfold parse_ini_checked
  have h := runLines_isSome (splitOnChar '\n' content) ⟨[], []⟩
  cases hr : runLines ⟨[], []⟩ (splitOnChar '\n' content) with
  | none => rw [hr] at h; simp at h
  | some st => simp [hr]

theorem claim_C9_witness :
    (parse_ini_checked "[\n[]\n[ x ]\n= y\nkey = value\n[profile".data).isSome = true :=
  claim_C9_parse_ini_panic_free "[\n[]\n[ x ]\n= y\nkey = value\n[profile".data

/-- C8: signing determinism — `sign` is a pure function of the method, path,
query, headers, body, credentials, region, service, and timestamp: two calls
whose inputs are pairwise equal produce identical signature and
authorization output. -/
theorem claim_C8_sign_deterministic
    (m1 m2 p1 p2 : RStr) (q1 q2 h1 h2 : List (RStr × RStr)) (b1 b2 : RStr)
    (c1 c2 : Credentials) (r1 r2 s1 s2 t1 t2 : RStr)
    (hm : m1 = m2) (hp : p1 = p2) (hq : q1 = q2) (hh : h1 = h2) (hb : b1 = b2)
    (hc : c1 = c2) (hr : r1 = r2) (hs : s1 = s2) (ht : t1 = t2) :
    sign m1 p1 q1 h1 b1 c1 r1 s1 t1 = sign m2 p2 q2 h2 b2 c2 r2 s2 t2 := by
  rw [hm, hp, hq, hh, hb, hc, hr, hs, ht]

theorem claim_C8_witness :
    sign "GET".data "/".data [] [("host".data, "example.amazonaws.com".data)]
        "".data ⟨"AKID".data, "SECRET".data, none⟩ "us-east-1".data "s3".data
        "20150830T123600Z".data =
      sign "GET".data "/".data [] [("host".data, "example.amazonaws.com".data)]
        "".data ⟨"AKID".data, "SECRET".data, none⟩ "us-east-1".data "s3".data
        "20150830T123600Z".data :=
  claim_C8_sign_deterministic _ _ _ _ _ _ _ _ _ _ _ _ _ _ _ _ _ _
    rfl rfl rfl rfl rfl rfl rfl rfl rfl

/-- C10: region resolution precedence — `AWS_REGION` wins outright (profile
and config file ignored), `AWS_DEFAULT_REGION` is consulted only when
`AWS_REGION` is unset, the config file's per-profile `region` key only when
both are unset, and the result is `none` when no source provides a region. -/
theorem claim_C10_region_precedence :
    (∀ p r d cf, get_profile_region p (some r) d cf = some r) ∧
    (∀ p r cf, get_profile_region p none (some r) cf = some r) ∧
    (∀ p text sec r, alGet (parse_ini_file text) p = some sec →
        alGet sec "region".data = some r →
        get_profile_region p none none (some text) = some r) ∧
    (∀ p, get_profile_region p none none none = none) ∧
    (∀ p text, alGet (parse_ini_file text) p = none →
        get_profile_region p none none (some text) = none) ∧
    (∀ p text sec, alGet (parse_ini_file text) p = some sec →
        alGet sec "region".data = none →
        get_profile_region p none none (some text) = none) := by
  refine ⟨fun p r d cf => rfl, fun p r cf => rfl, ?_, fun p => rfl, ?_, ?_⟩
  · intro p text sec r hsec hr
    simp [get_profile_region, hsec, hr]
  · intro p text hsec
    simp [get_profile_region, hsec]
  · intro p text sec hsec hr
    simp [get_profile_region, hsec, hr]

theorem claim_C10_witness :
    get_profile_region "dev".data (some "eu-west-1".data) (some "us-east-2".data)
        (some "[profile dev]\nregion = us-west-2".data) = some "eu-west-1".data ∧
    get_profile_region "dev".data none none
        (some "[profile dev]\nregion = us-west-2".data) = some "us-west-2".data :=
  ⟨claim_C10_region_precedence.1 "dev".data "eu-west-1".data (some "us-east-2".data)
      (some "[profile dev]\nregion = us-west-2".data),
   claim_C10_region_precedence.2.2.1 "dev".data "[profile dev]\nregion = us-west-2".data
      [("region".data, "us-west-2".data)] "us-west-2".data (by decide) (by decide)⟩

/-- C1: credential chain order for profile `default` — when both required
environment variables are set, `load_credentials` returns the
environment-sourced triple (session token from `AWS_SESSION_TOKEN`)
whatever the credentials file, config file, IMDS state and cache contain;
the environment is consulted only for the `default` profile (for any other
profile the result does not depend on the environment at all); and
`load_from_env` succeeds exactly when both required variables are set. -/
theorem claim_C1_env_wins :
    (∀ a s env credsFile configFile net pDT nw ni cache,
        env.accessKeyId = some a → env.secretAccessKey = some s →
        load_credentials "default".data env credsFile configFile net pDT nw ni cache =
          .ok ⟨a, s, env.sessionToken⟩) ∧
    (∀ p env1 env2 credsFile configFile net pDT nw ni cache, p ≠ "default".data →
        load_credentials p env1 credsFile configFile net pDT nw ni cache =
          load_credentials p env2 credsFile configFile net pDT nw ni cache) ∧
    (∀ env, exOk (load_from_env env) =
        (env.accessKeyId.isSome && env.secretAccessKey.isSome)) := by
  refine ⟨?_, ?_, ?_⟩
  · intro a s env credsFile configFile net pDT nw ni cache ha hs
    simp [load_credentials, load_from_env, ha, hs]
  · intro p env1 env2 credsFile configFile net pDT nw ni cache hp
    simp [load_credentials, hp]
  · intro env
    cases ha : env.accessKeyId <;> cases hs : env.secretAccessKey <;>
      simp [load_from_env, exOk, ha, hs]

theorem claim_C1_witness :
    load_credentials "default".data
        ⟨some "EK".data, some "ES".data, some "ET".data⟩
        (some "[default]\naws_access_key_id = FK\naws_secret_access_key = FS".data)
        none ⟨none, none, none⟩ (fun _ => none) 0 0 none =
      .ok ⟨"EK".data, "ES".data, some "ET".data⟩ :=
  claim_C1_env_wins.1 "EK".data "ES".data
    ⟨some "EK".data, some "ES".data, some "ET".data⟩
    (some "[default]\naws_access_key_id = FK\naws_secret_access_key = FS".data)
    none ⟨none, none, none⟩ (fun _ => none) 0 0 none rfl rfl

/-- C5: `load_credentials` fails exactly when every source in its chain
fails (the environment and IMDS sources being in the chain only for the
`default` profile); a non-final source's failure is never surfaced — any
failing run returns the fixed `NotFound` error, which carries the requested
profile name. -/
theorem claim_C5_chain_failure :
    (∀ p env credsFile configFile net pDT nw ni cache,
        exOk (load_credentials p env credsFile configFile net pDT nw ni cache) = false ↔
          ((p = "default".data → exOk (load_from_env env) = false) ∧
           exOk (load_from_credentials_file p credsFile) = false ∧
           exOk (load_from_config_file p configFile) = false ∧
           (p = "default".data →
             exOk (load_from_imds net pDT nw ni cache).1 = false))) ∧
    (∀ p env credsFile configFile net pDT nw ni cache,
        exOk (load_credentials p env credsFile configFile net pDT nw ni cache) = false →
        load_credentials p env credsFile configFile net pDT nw ni cache =
          .error (notFoundMsg p)) ∧
    (∀ p, notFoundMsg p =
        "No credentials found for profile '".data ++ p ++
          "'. Run 'aws configure' or set AWS_ACCESS_KEY_ID/AWS_SECRET_ACCESS_KEY".data) := by
  refine ⟨?_, ?_, fun p => rfl⟩
  · intro p env credsFile configFile net pDT nw ni cache
    by_cases hp : p = "default".data
    · subst hp
      cases he : load_from_env env <;>
        cases hc : load_from_credentials_file "default".data credsFile <;>
          cases hg : load_from_config_file "default".data configFile <;>
            cases hi : (load_from_imds net pDT nw ni cache).1 <;>
              simp [load_credentials, exOk, he, hc, hg, hi]
    · cases hc : load_from_credentials_file p credsFile <;>
        cases hg : load_from_config_file p configFile <;>
          simp [load_credentials, exOk, hc, hg, hp]
  · intro p env credsFile configFile net pDT nw ni cache
    by_cases hp : p = "default".data
    · subst hp
      cases he : load_from_env env <;>
        cases hc : load_from_credentials_file "default".data credsFile <;>
          cases hg : load_from_config_file "default".data configFile <;>
            cases hi : (load_from_imds net pDT nw ni cache).1 <;>
              simp [load_credentials, exOk, he, hc, hg, hi]
    · cases hc : load_from_credentials_file p credsFile <;>
        cases hg : load_from_config_file p configFile <;>
          simp [load_credentials, exOk, hc, hg, hp]

theorem claim_C5_witness :
    exOk (load_credentials "dev".data ⟨some "EK".data, some "ES".data, none⟩
        none none ⟨none, none, none⟩ (fun _ => none) 0 0 none) = false ∧
    load_credentials "dev".data ⟨some "EK".data, some "ES".data, none⟩
        none none ⟨none, none, none⟩ (fun _ => none) 0 0 none =
      .error (notFoundMsg "dev".data) :=
  ⟨(claim_C5_chain_failure.1 "dev".data ⟨some "EK".data, some "ES".data, none⟩
      none none ⟨none, none, none⟩ (fun _ => none) 0 0 none).mpr
      ⟨fun h => absurd h (by decide), by decide, by decide, fun h => absurd h (by decide)⟩,
   claim_C5_chain_failure.2.1 "dev".data ⟨some "EK".data, some "ES".data, none⟩
      none none ⟨none, none, none⟩ (fun _ => none) 0 0 none (by decide)⟩

/-- C4: IMDS cache freshness — `load_from_imds` performs no fetch exactly
when a cache entry exists whose expiration is more than the 5-minute
refresh buffer after now, in which case it returns the cached credentials
and leaves the cache unchanged; an entry expiring 10 minutes ahead is
served from cache, one expiring 2 minutes ahead triggers a fetch. -/
theorem claim_C4_cache_freshness :
    (∀ net pDT nw ni cache,
        (load_from_imds net pDT nw ni cache).2.2 = false ↔
          ∃ c, cache = some c ∧ ni + IMDS_REFRESH_BUFFER < c.expiration) ∧
    (∀ net pDT nw ni c, ni + IMDS_REFRESH_BUFFER < c.expiration →
        load_from_imds net pDT nw ni (some c) = (.ok c.credentials, some c, false)) ∧
    (∀ net pDT nw ni creds,
        load_from_imds net pDT nw ni (some ⟨creds, ni + 600⟩) =
          (.ok creds, some ⟨creds, ni + 600⟩, false)) ∧
    (∀ net pDT nw ni creds,
        (load_from_imds net pDT nw ni (some ⟨creds, ni + 120⟩)).2.2 = true) := by
  refine ⟨?_, ?_, ?_, ?_⟩
  · intro net pDT nw ni cache
    cases cache with
    | none => simp [load_from_imds]
    | some c =>
      by_cases h : ni + IMDS_REFRESH_BUFFER < c.expiration
      · simp [load_from_imds, h]
      · simp [load_from_imds, h]
  · intro net pDT nw ni c h
    simp [load_from_imds, h]
  · intro net pDT nw ni creds
    have h : ni + IMDS_REFRESH_BUFFER < ni + 600 := by
      simp [IMDS_REFRESH_BUFFER]
    simp [load_from_imds, h]
  · intro net pDT nw ni creds
    have h : ¬ ni + IMDS_REFRESH_BUFFER < ni + 120 := by
      simp [IMDS_REFRESH_BUFFER]
    simp [load_from_imds, h]

theorem claim_C4_witness :
    load_from_imds ⟨none, none, none⟩ (fun _ => none) 0 0
        (some ⟨⟨"K".data, "S".data, none⟩, 600⟩) =
      (.ok ⟨"K".data, "S".data, none⟩, some ⟨⟨"K".data, "S".data, none⟩, 600⟩, false) ∧
    (load_from_imds ⟨none, none, none⟩ (fun _ => none) 0 0
        (some ⟨⟨"K".data, "S".data, none⟩, 120⟩)).2.2 = true :=
  ⟨claim_C4_cache_freshness.2.2.1 ⟨none, none, none⟩ (fun _ => none) 0 0
      ⟨"K".data, "S".data, none⟩,
   claim_C4_cache_freshness.2.2.2 ⟨none, none, none⟩ (fun _ => none) 0 0
      ⟨"K".data, "S".data, none⟩⟩

/-- C6: when the IMDS credential document's expiration is missing,
unparseable, or already past, the fetch does not fail: `parse_expiration`
yields `none` for an unparseable or non-future timestamp, and
`fetch_imds_credentials` then substitutes a 1-hour default validity as the
cached expiration while still returning the fetched credentials. -/
theorem claim_C6_expiration_fallback :
    (∀ pDT s nw ni, (pDT s = none ∨ ∃ t, pDT s = some t ∧ t ≤ nw) →
        parse_expiration pDT s nw ni = none) ∧
    (∀ net pDT nw ni cache tr rr cst doc ak sk,
        net.tokenResp = some tr → statusSuccess tr.status = true →
        net.roleResp = some rr → statusSuccess rr.status = true →
        (trimChars rr.body).isEmpty = false →
        net.credsResp = some (cst, some doc) → statusSuccess cst = true →
        doc.accessKeyId = some ak → doc.secretAccessKey = some sk →
        (doc.expiration = none ∨
          ∃ es, doc.expiration = some es ∧ parse_expiration pDT es nw ni = none) →
        fetch_imds_credentials net pDT nw ni cache =
          (.ok ⟨ak, sk, doc.token⟩, some ⟨⟨ak, sk, doc.token⟩, ni + 3600⟩)) := by
  constructor
  · intro pDT s nw ni h
    rcases h with h | ⟨t, ht, hle⟩
    · simp [parse_expiration, h]
    · simp [parse_expiration, ht, hle]
  · intro net pDT nw ni cache tr rr cst doc ak sk htok hts hrole hrs hbody
      hcreds hcs hak hsk hexp
    rcases hexp with hexp | ⟨es, hes, hpe⟩
    · simp [fetch_imds_credentials, htok, hts, hrole, hrs, hbody, hcreds, hcs,
        hak, hsk, hexp]
    · simp [fetch_imds_credentials, htok, hts, hrole, hrs, hbody, hcreds, hcs,
        hak, hsk, hes, hpe]

theorem claim_C6_witness :
    parse_expiration (fun _ => some 5) "2024-01-15T12:00:00Z".data 10 0 = none ∧
    fetch_imds_credentials
        ⟨some ⟨200, "tok".data⟩, some ⟨200, "role".data⟩,
         some (200, some ⟨some "K".data, some "S".data, some "T".data,
                          some "bad".data⟩)⟩
        (fun _ => none) 0 50 none =
      (.ok ⟨"K".data, "S".data, some "T".data⟩,
       some ⟨⟨"K".data, "S".data, some "T".data⟩, 3650⟩) :=
  ⟨claim_C6_expiration_fallback.1 (fun _ => some 5) "2024-01-15T12:00:00Z".data 10 0
      (Or.inr ⟨5, rfl, by decide⟩),
   claim_C6_expiration_fallback.2
      ⟨some ⟨200, "tok".data⟩, some ⟨200, "role".data⟩,
       some (200, some ⟨some "K".data, some "S".data, some "T".data, some "bad".data⟩)⟩
      (fun _ => none) 0 50 none ⟨200, "tok".data⟩ ⟨200, "role".data⟩ 200
      ⟨some "K".data, some "S".data, some "T".data, some "bad".data⟩
      "K".data "S".data rfl (by decide) rfl (by decide) (by decide) rfl (by decide)
      rfl rfl (Or.inr ⟨"bad".data, rfl, by simp [parse_expiration]⟩)⟩

theorem fetch_imds_cases (net : ImdsNet) (pDT : RStr → Option Int) (nw : Int)
    (ni : Nat) (cache : Option CachedImdsCredentials) :
    (∃ cr exp, fetch_imds_credentials net pDT nw ni cache = (.ok cr, some ⟨cr, exp⟩)) ∨
    (∃ e, fetch_imds_credentials net pDT nw ni cache = (.error e, cache)) := by
  obtain ⟨t, r, c⟩ := net
  cases t with
  | none => exact Or.inr ⟨_, rfl⟩
  | some tr =>
    by_cases ht : statusSuccess tr.status = true
    case neg =>
      have hx : fetch_imds_credentials ⟨some tr, r, c⟩ pDT nw ni cache =
          (.error "IMDS token request failed".data, cache) := by
        simp [fetch_imds_credentials, ht]
      exact Or.inr ⟨_, hx⟩
    cases r with
    | none =>
      have hx : fetch_imds_credentials ⟨some tr, none, c⟩ pDT nw ni cache =
          (.error "Failed to get IAM role".data, cache) := by
        simp [fetch_imds_credentials, ht]
      exact Or.inr ⟨_, hx⟩
    | some rr =>
      by_cases hr : statusSuccess rr.status = true
      case neg =>
        have hx : fetch_imds_credentials ⟨some tr, some rr, c⟩ pDT nw ni cache =
            (.error "No IAM role attached to this EC2 instance".data, cache) := by
          simp [fetch_imds_credentials, ht, hr]
        exact Or.inr ⟨_, hx⟩
      by_cases hb : (trimChars rr.body).isEmpty = true
      case pos =>
        have hx : fetch_imds_credentials ⟨some tr, some rr, c⟩ pDT nw ni cache =
            (.error "No IAM role attached to this EC2 instance".data, cache) := by
          simp [fetch_imds_credentials, ht, hr, hb]
        exact Or.inr ⟨_, hx⟩
      cases c with
      | none =>
        have hx : fetch_imds_credentials ⟨some tr, some rr, none⟩ pDT nw ni cache =
            (.error "Failed to get credentials".data, cache) := by
          simp [fetch_imds_credentials, ht, hr, hb]
        exact Or.inr ⟨_, hx⟩
      | some p =>
        obtain ⟨cst, docOpt⟩ := p
        by_cases hc : statusSuccess cst = true
        case neg =>
          have hx : fetch_imds_credentials ⟨some tr, some rr, some (cst, docOpt)⟩
              pDT nw ni cache =
              (.error "Failed to get credentials for role".data, cache) := by
            simp [fetch_imds_credentials, ht, hr, hb, hc]
          exact Or.inr ⟨_, hx⟩
        cases docOpt with
        | none =>
          have hx : fetch_imds_credentials ⟨some tr, some rr, some (cst, none)⟩
              pDT nw ni cache =
              (.error "Failed to parse credentials JSON".data, cache) := by
            simp [fetch_imds_credentials, ht, hr, hb, hc]
          exact Or.inr ⟨_, hx⟩
        | some doc =>
          cases hak : doc.accessKeyId with
          | none =>
            have hx : fetch_imds_credentials ⟨some tr, some rr, some (cst, some doc)⟩
                pDT nw ni cache =
                (.error "AccessKeyId not found in IMDS response".data, cache) := by
              simp [fetch_imds_credentials, ht, hr, hb, hc, hak]
            exact Or.inr ⟨_, hx⟩
          | some ak =>
            cases hsk : doc.secretAccessKey with
            | none =>
              have hx : fetch_imds_credentials ⟨some tr, some rr, some (cst, some doc)⟩
                  pDT nw ni cache =
                  (.error "SecretAccessKey not found in IMDS response".data, cache) := by
                simp [fetch_imds_credentials, ht, hr, hb, hc, hak, hsk]
              exact Or.inr ⟨_, hx⟩
            | some sk =>
              cases hexp : doc.expiration with
              | none =>
                have hx : fetch_imds_credentials
                    ⟨some tr, some rr, some (cst, some doc)⟩ pDT nw ni cache =
                    (.ok ⟨ak, sk, doc.token⟩,
                     some ⟨⟨ak, sk, doc.token⟩, ni + 3600⟩) := by
                  simp [fetch_imds_credentials, ht, hr, hb, hc, hak, hsk, hexp]
                exact Or.inl ⟨_, _, hx⟩
              | some es =>
                have hx : fetch_imds_credentials
                    ⟨some tr, some rr, some (cst, some doc)⟩ pDT nw ni cache =
                    (.ok ⟨ak, sk, doc.token⟩,
                     some ⟨⟨ak, sk, doc.token⟩,
                           (parse_expiration pDT es nw ni).getD (ni + 3600)⟩) := by
                  simp [fetch_imds_credentials, ht, hr, hb, hc, hak, hsk, hexp]
                exact Or.inl ⟨_, _, hx⟩

/-- C7: on a successful IMDS fetch the cache entry is replaced wholesale —
the cache after the call holds exactly the returned credentials with the
computed expiration — and on a failed fetch the cache is unchanged. -/
theorem claim_C7_cache_replacement :
    (∀ net pDT nw ni cache c newCache,
        fetch_imds_credentials net pDT nw ni cache = (.ok c, newCache) →
        ∃ exp, newCache = some ⟨c, exp⟩) ∧
    (∀ net pDT nw ni cache e newCache,
        fetch_imds_credentials net pDT nw ni cache = (.error e, newCache) →
        newCache = cache) := by
  constructor
  · intro net pDT nw ni cache c newCache h
    rcases fetch_imds_cases net pDT nw ni cache with ⟨cr, exp, heq⟩ | ⟨e, heq⟩
    · rw [heq] at h
      have h1 : cr = c := by simpa using congrArg Prod.fst h
      have h2 : newCache = some ⟨cr, exp⟩ := (congrArg Prod.snd h).symm
      exact ⟨exp, by rw [h2, h1]⟩
    · rw [heq] at h
      exact absurd (congrArg Prod.fst h) (by simp)
  · intro net pDT nw ni cache e newCache h
    rcases fetch_imds_cases net pDT nw ni cache with ⟨cr, exp, heq⟩ | ⟨e2, heq⟩
    · rw [heq] at h
      exact absurd (congrArg Prod.fst h) (by simp)
    · rw [heq] at h
      exact (congrArg Prod.snd h).symm

theorem claim_C7_witness :
    (∃ exp, (fetch_imds_credentials
        ⟨some ⟨200, "t".data⟩, some ⟨200, "role".data⟩,
         some (200, some ⟨some "K".data, some "S".data, none, none⟩)⟩
        (fun _ => none) 0 0 none).2 = some ⟨⟨"K".data, "S".data, none⟩, exp⟩) ∧
    (fetch_imds_credentials ⟨none, none, none⟩ (fun _ => none) 0 0
        (some ⟨⟨"K".data, "S".data, none⟩, 42⟩)).2 =
      some ⟨⟨"K".data, "S".data, none⟩, 42⟩ :=
  ⟨claim_C7_cache_replacement.1
      ⟨some ⟨200, "t".data⟩, some ⟨200, "role".data⟩,
       some (200, some ⟨some "K".data, some "S".data, none, none⟩)⟩
      (fun _ => none) 0 0 none ⟨"K".data, "S".data, none⟩ _ rfl,
   claim_C7_cache_replacement.2 ⟨none, none, none⟩ (fun _ => none) 0 0
      (some ⟨⟨"K".data, "S".data, none⟩, 42⟩)
      "Failed to get IMDS token (not running on EC2?)".data _ rfl⟩

/-- C2: the INI line contract — blank and `#`/`;` comment lines are
skipped, a non-header `key = value` line (first `=` is the split point,
both sides trimmed) assigns into the current section, key-value lines
before any section header are discarded; and the §8 example config file
parses to a section keyed `dev` (not `profile dev`) whose resolution for
profile `dev` yields access key `X`, secret key `Y`, and no session
token. -/
theorem claim_C2_ini_line_contract :
    (∀ st line, ((trimChars line).isEmpty = true ∨
        startsWithChar '#' (trimChars line) = true ∨
        startsWithChar ';' (trimChars line) = true) →
        processLine st line = some st) ∧
    (∀ st line, st.current = [] →
        (startsWithChar '[' (trimChars line) && endsWithChar ']' (trimChars line)) = false →
        processLine st line = some st) ∧
    (∀ st line k v,
        ((trimChars line).isEmpty || startsWithChar '#' (trimChars line) ||
          startsWithChar ';' (trimChars line)) = false →
        (startsWithChar '[' (trimChars line) && endsWithChar ']' (trimChars line)) = false →
        splitOnceChar '=' (trimChars line) = some (k, v) →
        st.current.isEmpty = false →
        processLine st line =
          some ⟨alInsertKV st.sections st.current (trimChars k) (trimChars v),
                st.current⟩) ∧
    (parse_ini_file
        "[profile dev]\nregion = us-west-2\naws_access_key_id = X\naws_secret_access_key = Y\n".data =
      [("dev".data,
        [("region".data, "us-west-2".data), ("aws_access_key_id".data, "X".data),
         ("aws_secret_access_key".data, "Y".data)])] ∧
     alGet (parse_ini_file
        "[profile dev]\nregion = us-west-2\naws_access_key_id = X\naws_secret_access_key = Y\n".data)
        "profile dev".data = none ∧
     load_from_config_file "dev".data
        (some "[profile dev]\nregion = us-west-2\naws_access_key_id = X\naws_secret_access_key = Y\n".data) =
       .ok ⟨"X".data, "Y".data, none⟩) := by
  refine ⟨?_, ?_, ?_, by decide, by decide, by rfl⟩
  · intro st line h
    have hcond : ((trimChars line).isEmpty || startsWithChar '#' (trimChars line)
        || startsWithChar ';' (trimChars line)) = true := by
      rcases h with h | h | h <;> simp [h]
    simp [processLine, hcond]
  · intro st line hcur hhdr
    by_cases h0 : ((trimChars line).isEmpty || startsWithChar '#' (trimChars line)
        || startsWithChar ';' (trimChars line)) = true
    · simp [processLine, h0]
    · cases hs : splitOnceChar '=' (trimChars line) with
      | none => simp [processLine, h0, hhdr, hs]
      | some kv =>
        obtain ⟨k, v⟩ := kv
        have : st.current.isEmpty = true := by simp [hcur]
        simp [processLine, h0, hhdr, hs, this]
  · intro st line k v h0 hhdr hs hcur
    simp [processLine, h0, hhdr, hs, hcur]

theorem claim_C2_witness :
    processLine ⟨[], []⟩ "# comment".data = some ⟨[], []⟩ ∧
    processLine ⟨[], []⟩ "orphan = 1".data = some ⟨[], []⟩ :=
  ⟨claim_C2_ini_line_contract.1 ⟨[], []⟩ "# comment".data
      (Or.inr (Or.inl (by decide))),
   claim_C2_ini_line_contract.2.1 ⟨[], []⟩ "orphan = 1".data rfl (by decide)⟩

/-! ### Behaviour of the shared parser on `[profile <name>]` headers -/

theorem splitOnChar_ne_nil (sep : Char) (xs : RStr) : splitOnChar sep xs ≠ [] := by
  cases xs with
  | nil => simp [splitOnChar]
  | cons c rest =>
    unfold splitOnChar
    cases h : splitOnChar sep rest with
    | nil => simp
    | cons cur others => by_cases hc : c = sep <;> simp [hc]

theorem splitOnChar_cons_sep (sep : Char) (ys : RStr) :
    splitOnChar sep (sep :: ys) = [] :: splitOnChar sep ys := by
  cases h : splitOnChar sep ys with
  | nil => exact absurd h (splitOnChar_ne_nil sep ys)
  | cons cur others =>
    conv_lhs => simp only [splitOnChar]
    rw [h]
    simp

theorem splitOnChar_append_nosep (sep : Char) (xs ys : RStr) (r : RStr)
    (rs : List RStr) (hx : ∀ c ∈ xs, ¬(c = sep))
    (hy : splitOnChar sep ys = r :: rs) :
    splitOnChar sep (xs ++ ys) = (xs ++ r) :: rs := by
  induction xs with
  | nil => simpa using hy
  | cons c cs ih =>
    have hc : ¬(c = sep) := hx c (List.mem_cons_self c cs)
    have ih2 := ih (fun d hd => hx d (List.mem_cons_of_mem c hd))
    show splitOnChar sep (c :: (cs ++ ys)) = ((c :: cs) ++ r) :: rs
    unfold splitOnChar
    rw [ih2]
    simp [hc]

theorem dropWhile_eq_self_head (l : RStr)
    (h : ∀ c, l.head? = some c → isWS c = false) : l.dropWhile isWS = l := by
  cases l with
  | nil => rfl
  | cons x xs => simp [List.dropWhile_cons, h x rfl]

theorem trimChars_eq_self (l : RStr)
    (h1 : ∀ c, l.head? = some c → isWS c = false)
    (h2 : ∀ c, l.getLast? = some c → isWS c = false) : trimChars l = l := by
  unfold trimChars
  rw [dropWhile_eq_self_head l h1]
  rw [dropWhile_eq_self_head l.reverse
    (fun c hc => h2 c ((List.head?_reverse l) ▸ hc))]
  exact List.reverse_reverse l

theorem endsWithChar_concat (c : Char) (xs : RStr) :
    endsWithChar c (xs ++ [c]) = true := by
  induction xs with
  | nil => simp [endsWithChar]
  | cons x rest ih =>
    cases hr : rest ++ [c] with
    | nil => simp at hr
    | cons y ys =>
      show endsWithChar c (x :: (rest ++ [c])) = true
      rw [hr]
      have hstep : endsWithChar c (x :: y :: ys) = endsWithChar c (y :: ys) := rfl
      rw [hstep, ← hr]
      exact ih

theorem startsWithSeq_append (xs ys : RStr) : startsWithSeq xs (xs ++ ys) = true := by
  induction xs with
  | nil => rfl
  | cons x rest ih => simp [startsWithSeq, ih]

theorem rustSlice_bracketed (mid : RStr) :
    rustSlice ('[' :: (mid ++ [']'])) 1 (('[' :: (mid ++ [']'])).length - 1) =
      some mid := by
  unfold rustSlice
  rw [if_pos (by simp)]
  have hlen : ('[' :: (mid ++ [']'])).length - 1 = mid.length + 1 := by simp
  rw [hlen, List.take_succ_cons, List.take_left]
  rfl

theorem plainChar_not_WS {c : Char} (h : plainChar c = true) : isWS c = false := by
  cases hw : isWS c
  · rfl
  · exfalso
    have hd : ((c = ' ' ∨ c = '\t') ∨ c = '\n') ∨ c = '\r' := by
      simpa [isWS] using hw
    rcases hd with ((h1 | h1) | h1) | h1 <;> (subst h1; exact absurd h (by decide))

theorem cleanName_parts {p : RStr} (hp : cleanName p = true) :
    p.isEmpty = false ∧ p.all plainChar = true := by
  have h := Bool.and_eq_true_iff.mp hp
  exact ⟨by simpa using h.1, h.2⟩

theorem processLine_profile_header (sects : Sections) (cur p : RStr)
    (hp : cleanName p = true) :
    processLine ⟨sects, cur⟩ ("[profile ".data ++ p ++ "]".data) =
      some ⟨alEntryOrDefault sects p [], p⟩ := by
  obtain ⟨hpe, hall⟩ := cleanName_parts hp
  have hpnil : p ≠ [] := by
    intro h
    rw [h] at hpe
    simp at hpe
  have hL : "[profile ".data ++ p ++ "]".data =
      '[' :: (("profile ".data ++ p) ++ [']']) := by
    simp
  have hlast : ∀ c, (("profile ".data ++ p) ++ [']']).getLast? = some c → c = ']' := by
    intro c hc
    rw [List.getLast?_concat] at hc
    exact (Option.some_inj.mp hc).symm
  have hlastp : ∀ c, ("profile ".data ++ p).getLast? = some c → plainChar c = true := by
    intro c hc
    rw [List.getLast?_append] at hc
    cases hpl : p.getLast? with
    | none =>
      exact absurd hpl (by simpa [List.getLast?_eq_none_iff] using hpnil)
    | some d =>
      rw [hpl] at hc
      simp at hc
      subst hc
      exact List.all_eq_true.mp hall d (List.mem_of_mem_getLast? hpl)
  have htrim1 : trimChars ('[' :: (("profile ".data ++ p) ++ [']'])) =
      '[' :: (("profile ".data ++ p) ++ [']']) := by
    apply trimChars_eq_self
    · intro c hc
      simp at hc
      subst hc
      decide
    · intro c hc
      rw [show ('[' :: (("profile ".data ++ p) ++ [']'])) =
          ('[' :: ("profile ".data ++ p)) ++ [']'] by simp] at hc
      rw [List.getLast?_concat] at hc
      rw [(Option.some_inj.mp hc).symm]
      decide
  have htrim2 : trimChars ("profile ".data ++ p) = "profile ".data ++ p := by
    apply trimChars_eq_self
    · intro c hc
      simp [List.head?_append] at hc
      subst hc
      decide
    · intro c hc
      exact plainChar_not_WS (hlastp c hc)
  have hcond : (('[' :: (("profile ".data ++ p) ++ [']'])).isEmpty ||
      startsWithChar '#' ('[' :: (("profile ".data ++ p) ++ [']'])) ||
      startsWithChar ';' ('[' :: (("profile ".data ++ p) ++ [']']))) = false := by
    simp [startsWithChar]
  have hhdr : (startsWithChar '[' ('[' :: (("profile ".data ++ p) ++ [']'])) &&
      endsWithChar ']' ('[' :: (("profile ".data ++ p) ++ [']']))) = true := by
    have h1 : startsWithChar '[' ('[' :: (("profile ".data ++ p) ++ [']'])) = true := by
      simp [startsWithChar]
    have h2 : endsWithChar ']' ('[' :: (("profile ".data ++ p) ++ [']'])) = true := by
      rw [show ('[' :: (("profile ".data ++ p) ++ [']'])) =
          ('[' :: ("profile ".data ++ p)) ++ [']'] by simp]
      exact endsWithChar_concat ']' ('[' :: ("profile ".data ++ p))
    rw [h1, h2]
    rfl
  rw [hL]
  simp only [processLine]
  rw [htrim1, hcond, hhdr, rustSlice_bracketed]
  have htrim2c : trimChars ('p' :: 'r' :: 'o' :: 'f' :: 'i' :: 'l' :: 'e' :: ' ' :: p) =
      'p' :: 'r' :: 'o' :: 'f' :: 'i' :: 'l' :: 'e' :: ' ' :: p := htrim2
  have hswc : startsWithSeq ['p', 'r', 'o', 'f', 'i', 'l', 'e', ' ']
      ('p' :: 'r' :: 'o' :: 'f' :: 'i' :: 'l' :: 'e' :: ' ' :: p) = true :=
    startsWithSeq_append "profile ".data p
  have hdropc : List.drop 8 ('p' :: 'r' :: 'o' :: 'f' :: 'i' :: 'l' :: 'e' :: ' ' :: p) = p :=
    List.drop_left "profile ".data p
  simp [htrim2c, hswc, hdropc]

theorem processLine_kv (sects : Sections) (p line k v : RStr)
    (hp : p.isEmpty = false)
    (h0 : ((trimChars line).isEmpty || startsWithChar '#' (trimChars line) ||
        startsWithChar ';' (trimChars line)) = false)
    (h1 : (startsWithChar '[' (trimChars line) &&
        endsWithChar ']' (trimChars line)) = false)
    (hs : splitOnceChar '=' (trimChars line) = some (k, v)) :
    processLine ⟨sects, p⟩ line =
      some ⟨alInsertKV sects p (trimChars k) (trimChars v), p⟩ := by
  simp only [processLine]
  rw [h0, h1, hs]
  simp [hp]

theorem runLines_cons_some (st st2 : IniState) (l : RStr) (ls : List RStr)
    (h : processLine st l = some st2) :
    runLines st (l :: ls) = runLines st2 ls := by
  conv_lhs => rw [runLines]
  rw [h]

theorem parse_profile_header_file (p : RStr) (hp : cleanName p = true) :
    parse_ini_file ("[profile ".data ++ p ++
        "]\naws_access_key_id = A\naws_secret_access_key = S".data) =
      [(p, [("aws_access_key_id".data, "A".data),
            ("aws_secret_access_key".data, "S".data)])] := by
  obtain ⟨hpe, hall⟩ := cleanName_parts hp
  have hcontent : "[profile ".data ++ p ++
      "]\naws_access_key_id = A\naws_secret_access_key = S".data =
      ("[profile ".data ++ p ++ "]".data) ++
        ('\n' :: "aws_access_key_id = A\naws_secret_access_key = S".data) := by
    simp
  have hrest : splitOnChar '\n'
      "aws_access_key_id = A\naws_secret_access_key = S".data =
      ["aws_access_key_id = A".data, "aws_secret_access_key = S".data] := by decide
  have hys : splitOnChar '\n'
      ('\n' :: "aws_access_key_id = A\naws_secret_access_key = S".data) =
      [] :: ["aws_access_key_id = A".data, "aws_secret_access_key = S".data] := by
    rw [splitOnChar_cons_sep, hrest]
  have hno : ∀ c ∈ "[profile ".data ++ p ++ "]".data, ¬(c = '\n') := by
    intro c hc heq
    subst heq
    rcases List.mem_append.mp hc with hc1 | hc2
    · rcases List.mem_append.mp hc1 with hc3 | hc4
      · exact absurd hc3 (by decide)
      · exact absurd (List.all_eq_true.mp hall _ hc4) (by decide)
    · exact absurd hc2 (by decide)
  have hsplit := splitOnChar_append_nosep '\n' ("[profile ".data ++ p ++ "]".data)
      ('\n' :: "aws_access_key_id = A\naws_secret_access_key = S".data)
      [] ["aws_access_key_id = A".data, "aws_secret_access_key = S".data] hno hys
  rw [List.append_nil] at hsplit
  have hl1 : processLine ⟨[], []⟩ ("[profile ".data ++ p ++ "]".data) =
      some ⟨[(p, [])], p⟩ := processLine_profile_header [] [] p hp
  have hi2 : alInsertKV [(p, [])] p (trimChars "aws_access_key_id ".data)
      (trimChars " A".data) = [(p, [("aws_access_key_id".data, "A".data)])] := by
    have htk : trimChars "aws_access_key_id ".data = "aws_access_key_id".data := by
      decide
    have htv : trimChars " A".data = "A".data := by decide
    rw [htk, htv]
    simp [alInsertKV, alInsert]
  have hl2 : processLine ⟨[(p, [])], p⟩ "aws_access_key_id = A".data =
      some ⟨[(p, [("aws_access_key_id".data, "A".data)])], p⟩ := by
    rw [processLine_kv [(p, [])] p "aws_access_key_id = A".data
      "aws_access_key_id ".data " A".data hpe (by decide) (by decide) (by decide)]
    rw [hi2]
  have hi3 : alInsertKV [(p, [("aws_access_key_id".data, "A".data)])] p
      (trimChars "aws_secret_access_key ".data) (trimChars " S".data) =
      [(p, [("aws_access_key_id".data, "A".data),
            ("aws_secret_access_key".data, "S".data)])] := by
    have htk : trimChars "aws_secret_access_key ".data =
        "aws_secret_access_key".data := by decide
    have htv : trimChars " S".data = "S".data := by decide
    rw [htk, htv]
    simp +decide [alInsertKV, alInsert]
  have hl3 : processLine ⟨[(p, [("aws_access_key_id".data, "A".data)])], p⟩
      "aws_secret_access_key = S".data =
      some ⟨[(p, [("aws_access_key_id".data, "A".data),
                  ("aws_secret_access_key".data, "S".data)])], p⟩ := by
    rw [processLine_kv [(p, [("aws_access_key_id".data, "A".data)])] p
      "aws_secret_access_key = S".data "aws_secret_access_key ".data " S".data
      hpe (by decide) (by decide) (by decide)]
    rw [hi3]
  unfold parse_ini_file parse_ini_checked
  rw [hcontent, hsplit]
  rw [runLines_cons_some _ _ _ _ hl1, runLines_cons_some _ _ _ _ hl2,
    runLines_cons_some _ _ _ _ hl3]
  rfl

/-- C3 counterexample: the claim says a credentials file whose only section
header is `[profile p]` never resolves profile `p`, but `parse_ini_file` is
shared by both loaders and strips the `profile ` prefix unconditionally, so
the credentials file `[profile dev]` with both required keys does resolve
profile `dev`. -/
theorem claim_C3_counterexample :
    load_from_credentials_file "dev".data
        (some "[profile dev]\naws_access_key_id = A\naws_secret_access_key = S".data) =
      .ok ⟨"A".data, "S".data, none⟩ ∧
    exOk (load_from_credentials_file "dev".data
        (some "[profile dev]\naws_access_key_id = A\naws_secret_access_key = S".data)) =
      true :=
  ⟨rfl, rfl⟩

/-- C3 (amended): resolution from the credentials file succeeds only for a
section of the parsed map whose (normalized) name exactly matches the
requested profile; the `profile <name>` → `<name>` normalization is applied
by the shared parser to the credentials file as well as the config file, so
for every ordinary profile name `p` a credentials file whose only section
header is `[profile p]` (with both required keys) does resolve profile
`p`. -/
theorem claim_C3_amended_normalization :
    (∀ p content, exOk (load_from_credentials_file p (some content)) = true →
        (alGet (parse_ini_file content) p).isSome = true) ∧
    (∀ p, cleanName p = true →
        load_from_credentials_file p (some ("[profile ".data ++ p ++
            "]\naws_access_key_id = A\naws_secret_access_key = S".data)) =
          .ok ⟨"A".data, "S".data, none⟩) := by
  constructor
  · intro p content h
    simp only [load_from_credentials_file] at h
    cases hg : alGet (parse_ini_file content) p with
    | none => rw [hg] at h; simp [exOk] at h
    | some sec => simp [hg]
  · intro p hp
    simp only [load_from_credentials_file]
    rw [parse_profile_header_file p hp]
    have halg : alGet [(p, [("aws_access_key_id".data, "A".data),
        ("aws_secret_access_key".data, "S".data)])] p =
        some [("aws_access_key_id".data, "A".data),
              ("aws_secret_access_key".data, "S".data)] := by
      simp [alGet]
    rw [halg]
    rfl

theorem claim_C3_amended_witness :
    load_from_credentials_file "dev".data
        (some ("[profile ".data ++ "dev".data ++
            "]\naws_access_key_id = A\naws_secret_access_key = S".data)) =
      .ok ⟨"A".data, "S".data, none⟩ :=
  claim_C3_amended_normalization.2 "dev".data (by decide)
